import Mathlib

/-!
Shallow embedding of the rules-and-feedback engine of the chess coaching
session component (`src/unnamed/part_000`).

Conventions of the embedding:

* JavaScript numbers are embedded as exact rationals (`ℚ`); every constant
  of the source (0.2, 0.3, 0.5, 1.5, 2, 3, …) and every value reached by
  the claims is decimal, so the comparisons of the source are reproduced
  exactly.
* The board is an array of arrays (`List (List (Option Piece))`), as in the
  source.  Out-of-range reads yield `none` (the source either guards the
  indices before reading or only reads in-range squares).
* The source's component functions close over the React state (`board`,
  `currentPlayer`, `moves`, `bestMove`, `engineEvaluation`, `timeControl`).
  The embedding passes that state explicitly: a function that reads the
  state variable `board` receives it as an explicit `stateBoard` argument,
  kept separate from any `board` *parameter* the source function declares
  (`generateAllPossibleMoves`, `detectThreats`, `updateLiveHints` and
  `evaluateCenterControl` shadow the state with a parameter of the same
  name, while `isValidMove` and `isPathClear` have no board parameter and
  read the state).
* Fallible code is embedded in `Option`: `makeMove` on an empty source
  square would throw in JS (`none` here), and the accuracy formula with
  zero moves is `0/0 = NaN` in JS (`none` here).
* `Math.random()` is embedded as an explicit argument: a rational in
  `[0,1)` where the source scales a random draw, an index where the source
  picks a random list element.
-/

inductive Color where
  | white
  | black
deriving DecidableEq, Repr

inductive PieceType where
  | pawn
  | knight
  | bishop
  | rook
  | queen
  | king
deriving DecidableEq, Repr

/-- A piece as stored on the board: `{ type, color, moved }`. -/
structure Piece where
  type : PieceType
  color : Color
  moved : Bool
deriving DecidableEq, Repr

/-- The board: an array of 8 arrays of 8 squares, each empty or a piece. -/
abbrev Board := List (List (Option Piece))

/-- Read `board[r][c]` with natural-number indices (in-range in the source). -/
def getSqN (b : Board) (r c : ℕ) : Option Piece :=
  (b.getD r []).getD c none

/-- Read `board[r][c]` with the integer indices the move arithmetic uses;
out-of-range reads are `none`. -/
def getSq (b : Board) (r c : ℤ) : Option Piece :=
  if 0 ≤ r ∧ r < 8 ∧ 0 ≤ c ∧ c < 8 then getSqN b r.toNat c.toNat else none

/-- Write `board[r][c] = v`. -/
def setSq (b : Board) (r c : ℕ) (v : Option Piece) : Board :=
  b.set r ((b.getD r []).set c v)

/-- An 8×8 board: 8 rows of 8 squares (what `initializeBoard` constructs). -/
def Board.WF (b : Board) : Prop :=
  b.length = 8 ∧ ∀ row ∈ b, row.length = 8

instance (b : Board) : Decidable b.WF := by
  unfold Board.WF; infer_instance

/-- `initializeBoard`: the standard initial setup; row 0/1 black, row 6/7
white, `moved = false` everywhere. -/
def initializeBoard : Board :=
  let back : List PieceType :=
    [.rook, .knight, .bishop, .queen, .king, .bishop, .knight, .rook]
  let pawns : List PieceType := List.replicate 8 .pawn
  [ back.map (fun t => some ⟨t, .black, false⟩)
  , pawns.map (fun t => some ⟨t, .black, false⟩)
  , List.replicate 8 none
  , List.replicate 8 none
  , List.replicate 8 none
  , List.replicate 8 none
  , pawns.map (fun t => some ⟨t, .white, false⟩)
  , back.map (fun t => some ⟨t, .white, false⟩) ]

/-- `pieceValues`. -/
def pieceValues : PieceType → ℚ
  | .pawn => 1
  | .knight => 3
  | .bishop => 3
  | .rook => 5
  | .queen => 9
  | .king => 0

/-- The step of `isPathClear`:
`toRow > fromRow ? 1 : toRow < fromRow ? -1 : 0`. -/
def stepOf (a b : ℤ) : ℤ :=
  if a < b then 1 else if b < a then -1 else 0

/-- The `while (currentRow !== toRow || currentCol !== toCol)` loop of
`isPathClear`, reading the state board.  The loop itself is unbounded; the
embedding carries fuel and returns `none` if the fuel runs out, `some` with
the loop's answer otherwise.  `isPathClear` runs it with fuel 8, enough for
every aligned pair of squares of the 8×8 board (proved below). -/
def pathClearAux (stateBoard : Board) (toRow toCol rowStep colStep : ℤ) :
    ℕ → ℤ → ℤ → Option Bool
  | 0, r, c => if r = toRow ∧ c = toCol then some true else none
  | fuel + 1, r, c =>
    if r = toRow ∧ c = toCol then some true
    else if (getSq stateBoard r c).isSome then some false
    else pathClearAux stateBoard toRow toCol rowStep colStep fuel
        (r + rowStep) (c + colStep)

/-- `isPathClear(fromRow, fromCol, toRow, toCol)`: every square strictly
between source and destination is empty.  Reads the session's `board`
state (it has no board parameter in the source). -/
def isPathClear (stateBoard : Board) (fromRow fromCol toRow toCol : ℤ) : Bool :=
  let rowStep := stepOf fromRow toRow
  let colStep := stepOf fromCol toCol
  (pathClearAux stateBoard toRow toCol rowStep colStep 8
      (fromRow + rowStep) (fromCol + colStep)).getD false

/-- `isValidMove(fromRow, fromCol, toRow, toCol, piece)`: the legality
checker.  Reads the session's `board` state (it has no board parameter in
the source). -/
def isValidMove (stateBoard : Board)
    (fromRow fromCol toRow toCol : ℤ) (piece : Piece) : Bool :=
  if toRow < 0 || toRow > 7 || toCol < 0 || toCol > 7 then false
  else if fromRow = toRow && fromCol = toCol then false
  else
    let target := getSq stateBoard toRow toCol
    if (match target with
        | some t => t.color = piece.color
        | none => false : Bool) then false
    else
      let rowDiff := (toRow - fromRow).natAbs
      let colDiff := (toCol - fromCol).natAbs
      match piece.type with
      | .pawn =>
        let direction : ℤ := if piece.color = .white then -1 else 1
        let startRow : ℤ := if piece.color = .white then 6 else 1
        if toCol = fromCol && target.isNone &&
            (toRow = fromRow + direction ||
             (fromRow = startRow && toRow = fromRow + 2 * direction &&
              (getSq stateBoard (fromRow + direction) fromCol).isNone)) then
          true
        else
          (toCol - fromCol).natAbs = 1 && toRow = fromRow + direction &&
            target.isSome
      | .knight =>
        (rowDiff = 2 && colDiff = 1) || (rowDiff = 1 && colDiff = 2)
      | .bishop =>
        if rowDiff ≠ colDiff then false
        else isPathClear stateBoard fromRow fromCol toRow toCol
      | .rook =>
        if fromRow ≠ toRow && fromCol ≠ toCol then false
        else isPathClear stateBoard fromRow fromCol toRow toCol
      | .queen =>
        if fromRow ≠ toRow && fromCol ≠ toCol && rowDiff ≠ colDiff then false
        else isPathClear stateBoard fromRow fromCol toRow toCol
      | .king =>
        rowDiff ≤ 1 && colDiff ≤ 1

/-- The names of the piece kinds, as the source spells them in `piece.type`. -/
def pieceTypeName : PieceType → String
  | .pawn => "pawn"
  | .knight => "knight"
  | .bishop => "bishop"
  | .rook => "rook"
  | .queen => "queen"
  | .king => "king"

/-- `piece.type[0].toUpperCase()` of `toAlgebraic` (note knight and king
both yield "K", as in the source). -/
def firstLetterUpper (s : String) : String :=
  String.mk ((s.data.take 1).map Char.toUpper)

/-- `toAlgebraic(fromRow, fromCol, toRow, toCol, piece)`. -/
def toAlgebraic (fromRow fromCol toRow toCol : ℕ) (piece : Piece) : String :=
  let files := "abcdefgh"
  let pieceLetter :=
    if piece.type = .pawn then "" else firstLetterUpper (pieceTypeName piece.type)
  pieceLetter ++ (files.drop fromCol).take 1 ++ toString (8 - fromRow) ++ "-" ++
    (files.drop toCol).take 1 ++ toString (8 - toRow)

/-- A generated move `{ from, to, notation }` (source/destination as
row–column pairs; `nota` is the notation string). -/
structure MoveRec where
  fromR : ℕ
  fromC : ℕ
  toR : ℕ
  toC : ℕ
  nota : String
deriving DecidableEq, Repr

/-- `generateAllPossibleMoves(board, color)`.  The `board` parameter (here
`b`) supplies the pieces to move; the legality test `isValidMove` reads the
session's `board` *state* (here `stateBoard`), which the source closes
over — the parameter shadows the state only inside this function's own
body. -/
def generateAllPossibleMoves (stateBoard : Board) (b : Board) (color : Color) :
    List MoveRec :=
  b.enum.flatMap fun rrow =>
    rrow.2.enum.flatMap fun ccell =>
      match ccell.2 with
      | some piece =>
        if piece.color = color then
          (List.range 8).flatMap fun (tr : ℕ) =>
            (List.range 8).filterMap fun (tc : ℕ) =>
              if isValidMove stateBoard rrow.1 ccell.1 tr tc piece then
                some ⟨rrow.1, ccell.1, tr, tc, toAlgebraic rrow.1 ccell.1 tr tc piece⟩
              else none
        else []
      | none => []

/-- The board update of `makeMove` (deep copy, set the piece's `moved`
flag through the copied reference, write the destination, clear the
source, in the order of the source).  A `null` source square would make
`piece.moved = true` throw in JS: `none` here. -/
def makeMoveBoard (b : Board) (fromRow fromCol toRow toCol : ℕ) : Option Board :=
  match getSqN b fromRow fromCol with
  | none => none
  | some p =>
    let piece : Piece := { p with moved := true }
    let b1 := setSq b fromRow fromCol (some piece)
    let b2 := setSq b1 toRow toCol (some piece)
    some (setSq b2 fromRow fromCol none)

/-- `calculateMaterialBalance(board)`. -/
def calculateMaterialBalance (b : Board) : ℚ :=
  (b.map fun row =>
    (row.map fun cell =>
      match cell with
      | some piece =>
        if piece.color = .white then pieceValues piece.type
        else -pieceValues piece.type
      | none => (0 : ℚ)).sum).sum

/-- `evaluatePosition(board)`: center occupation ±0.3, the knight
development terms −0.2 (white home squares) and +0.2 (black home squares),
in the order of the source. -/
def evaluatePosition (b : Board) : ℚ :=
  let center :=
    (([(3, 3), (3, 4), (4, 3), (4, 4)] : List (ℤ × ℤ)).map fun rc =>
      match getSq b rc.1 rc.2 with
      | some piece => if piece.color = .white then (3 : ℚ) / 10 else -(3 / 10)
      | none => 0).sum
  let whiteKnights :=
    (([(7, 1), (7, 6)] : List (ℤ × ℤ)).map fun rc =>
      match getSq b rc.1 rc.2 with
      | some piece =>
        if piece.type = .knight ∧ piece.moved = false then -((2 : ℚ) / 10) else 0
      | none => 0).sum
  let blackKnights :=
    (([(0, 1), (0, 6)] : List (ℤ × ℤ)).map fun rc =>
      match getSq b rc.1 rc.2 with
      | some piece =>
        if piece.type = .knight ∧ piece.moved = false then (2 : ℚ) / 10 else 0
      | none => 0).sum
  center + whiteKnights + blackKnights

/-- The evaluation `simulateStockfishAnalysis` computes and returns:
`(materialBalance + positionScore) / 10`. -/
def simulateEval (b : Board) : ℚ :=
  (calculateMaterialBalance b + evaluatePosition b) / 10

/-- A classification record `{ type, symbol, description, feedback }`. -/
structure Classification where
  type : String
  symbol : String
  description : String
  feedback : List String
deriving DecidableEq, Repr

/-- The pool `generateTacticalFeedback` draws from (`Math.random()`
embedded as the index `k`). -/
def generateTacticalFeedback (k : ℕ) : String :=
  [ "This move allows your opponent to gain material."
  , "Your piece is now vulnerable to capture."
  , "This weakens your pawn structure."
  , "This move reduces your piece activity."
  , "Consider piece safety before moving."].getD k ""

/-- The pool `generateBlunderFeedback` draws from (`Math.random()`
embedded as the index `k`). -/
def generateBlunderFeedback (k : ℕ) : String :=
  [ "This move hangs a piece - always check if your pieces are protected!"
  , "You missed a tactical threat. Look for checks, captures, and attacks."
  , "This severely weakens your king safety."
  , "You are giving away material for nothing in return."
  , "Always calculate forcing moves before committing."].getD k ""

/-- The evaluation delta of `classifyMove`:
`currentPlayer === 'white' ? previousEval - newEval : newEval - previousEval`. -/
def classifyDiff (currentPlayer : Color) (previousEval newEval : ℚ) : ℚ :=
  if currentPlayer = .white then previousEval - newEval else newEval - previousEval

/-- `classifyMove(previousEval, newEval, moveData)`.  The source reads
`currentPlayer` and `bestMove` from the session state (explicit arguments
here) and draws the mistake/blunder feedback line at random (the indices
`tk`/`bk` here); `moveData` itself is never used beyond being forwarded to
the feedback generators, which ignore it. -/
def classifyMove (currentPlayer : Color) (bestMove : Option MoveRec)
    (tk bk : ℕ) (previousEval newEval : ℚ) : Classification :=
  let diff := classifyDiff currentPlayer previousEval newEval
  if diff < -2 then
    ⟨"brilliant", "!!", "Brilliant move!",
      [ "Outstanding! This move significantly improves your position."
      , "This is exactly what the engine recommends."]⟩
  else if diff < -(1 / 2) then
    ⟨"best", "!", "Excellent move",
      ["Great choice! This maintains your advantage."]⟩
  else if 1 / 2 < diff ∧ diff < 3 / 2 then
    ⟨"inaccuracy", "?", "Inaccuracy",
      [ "This move is okay but not optimal."
      , "Consider " ++
          (match bestMove with
           | some m => m.nota
           | none => "developing pieces") ++ " instead."]⟩
  else if 3 / 2 < diff ∧ diff < 3 then
    ⟨"mistake", "??", "Mistake",
      [ "This significantly weakens your position."
      , generateTacticalFeedback tk]⟩
  else if 3 < diff then
    ⟨"blunder", "???", "Blunder!",
      [ "Critical error! This move loses material or position."
      , generateBlunderFeedback bk]⟩
  else
    ⟨"good", "", "Solid move", []⟩

/-- `detectThreats(board, color)`.  The `board` parameter (here `b`)
supplies both the scanned own pieces and the candidate attackers; the
inner `isValidMove` reads the session's `board` state (`stateBoard`).
One entry is pushed per (own piece, attacker) pair. -/
def detectThreats (stateBoard : Board) (b : Board) (color : Color) :
    List (Piece × ℕ × ℕ) :=
  b.enum.flatMap fun rrow =>
    rrow.2.enum.flatMap fun ccell =>
      match ccell.2 with
      | some piece =>
        if piece.color = color then
          (List.range 8).flatMap fun (ar : ℕ) =>
            (List.range 8).filterMap fun (ac : ℕ) =>
              match getSqN b ar ac with
              | some attacker =>
                if attacker.color ≠ color ∧
                    isValidMove stateBoard ar ac rrow.1 ccell.1 attacker then
                  some (piece, rrow.1, ccell.1)
                else none
              | none => none
        else []
      | none => []

/-- `countUndevelopedPieces(board, color)`: occupied, never-moved squares
among columns 1, 2, 5, 6 of the color's back rank. -/
def countUndevelopedPieces (b : Board) (color : Color) : ℕ :=
  let startRow : ℕ := if color = .white then 7 else 0
  (([1, 2, 5, 6] : List ℕ).filter fun col =>
    match getSqN b startRow col with
    | some piece => !piece.moved
    | none => false).length

/-- `evaluateCenterControl(board)`: ±1 per occupied center square, signed
for the session's `currentPlayer` (read from the state). -/
def evaluateCenterControl (currentPlayer : Color) (b : Board) : ℤ :=
  (([(3, 3), (3, 4), (4, 3), (4, 4)] : List (ℤ × ℤ)).map fun rc =>
    match getSq b rc.1 rc.2 with
    | some piece => if piece.color = currentPlayer then (1 : ℤ) else -1
    | none => 0).sum

/-- A live coaching hint `{ type, message }`. -/
structure Hint where
  type : String
  message : String
deriving DecidableEq, Repr

/-- `updateLiveHints(board, lastMove, classification)`: opening, tactical
and positional hints in that order, clipped to 3.  The source reads
`moves.length` and `currentPlayer` from the session state (`movesLen` and
`currentPlayer` here); its `board` parameter is `b`; `lastMove` and
`classification` are never read. -/
def updateLiveHints (stateBoard : Board) (movesLen : ℕ) (currentPlayer : Color)
    (b : Board) : List Hint :=
  let opening : List Hint :=
    if movesLen < 10 then
      if 2 < countUndevelopedPieces b currentPlayer then
        [⟨"opening",
          "Focus on developing your knights and bishops before moving your queen."⟩]
      else []
    else []
  let threats := detectThreats stateBoard b currentPlayer
  let tactical : List Hint :=
    if 0 < threats.length then
      [⟨"tactical",
        "Alert: " ++ toString threats.length ++
          " pieces under attack! Defend or counter-attack."⟩]
    else []
  let positional : List Hint :=
    if evaluateCenterControl currentPlayer b < -1 then
      [⟨"positional",
        "Your opponent controls the center. Consider challenging with pawns or pieces."⟩]
    else []
  (opening ++ tactical ++ positional).take 3

/-- A move-history record, reduced to the field `generatePostGameAnalysis`
reads: its (possibly absent) classification. -/
structure MoveHist where
  classification : Option Classification
deriving DecidableEq, Repr

/-- The filter `moves.filter(m => m.classification &&
m.classification.type === t).length` of `generatePostGameAnalysis`. -/
def classifiedCount (moves : List MoveHist) (t : String) : ℕ :=
  (moves.filter fun m =>
    match m.classification with
    | some c => c.type = t
    | none => false).length

/-- The accuracy of `generatePostGameAnalysis`:
`(totalMoves - blunderCount - mistakeCount) / totalMoves * 100`.  With
`totalMoves = 0` the JS expression is `0/0 = NaN`: `none` here.  There is
no guard in the source. -/
def accuracyOf (moves : List MoveHist) : Option ℚ :=
  let totalMoves := moves.length
  let blunderCount := classifiedCount moves "blunder"
  let mistakeCount := classifiedCount moves "mistake"
  if totalMoves = 0 then none
  else
    some (((totalMoves : ℚ) - blunderCount - mistakeCount) / totalMoves * 100)

/-- The five performance scores `generatePostGameAnalysis` stores. -/
structure PerformanceStats where
  tacticalAccuracy : ℚ
  positionalAwareness : ℚ
  endgameSkill : ℚ
  openingKnowledge : ℚ
  timeManagement : ℚ

/-- The `setPerformanceStats` record of `generatePostGameAnalysis`.  The
source reads `moves`, `board` and `timeControl.white` from the session
state; `r1` and `r2` embed its two `Math.random()` draws (each in
`[0,1)`).  Note `timeManagement` divides by the constant 600, not by the
configured initial time allotment. -/
def performanceStatsOf (moves : List MoveHist) (b : Board)
    (timeControlWhite r1 r2 : ℚ) : PerformanceStats :=
  let blunderCount := classifiedCount moves "blunder"
  { tacticalAccuracy := max 0 (100 - blunderCount * 20)
  , positionalAwareness := r1 * 30 + 60
  , endgameSkill := if 40 < moves.length then r2 * 30 + 50 else 0
  , openingKnowledge := 100 - countUndevelopedPieces b .white * 15
  , timeManagement := timeControlWhite / 600 * 100 }

/-- The session state the component functions close over, reduced to the
fields the embedded functions read. -/
structure SessionState where
  board : Board
  currentPlayer : Color
  movesLen : ℕ
  engineEvaluation : ℚ
  bestMove : Option MoveRec
  timeControlWhite : ℚ
  timeControlBlack : ℚ

/-- `isValidMove` as it exists in the source: a closure over the session
state.  The only state it reads is `board` (directly and through
`isPathClear`); it mutates nothing. -/
def isValidMoveSt (s : SessionState)
    (fromRow fromCol toRow toCol : ℤ) (piece : Piece) : Bool :=
  isValidMove s.board fromRow fromCol toRow toCol piece

/-- An empty rank. -/
def emptyRow : List (Option Piece) := List.replicate 8 none

/-- Test fixture: a board holding only a white rook on (4,4) and a white
pawn on (4,5). -/
def rookPawnBoard : Board :=
  [ emptyRow, emptyRow, emptyRow, emptyRow
  , [none, none, none, none, some ⟨.rook, .white, true⟩,
     some ⟨.pawn, .white, true⟩, none, none]
  , emptyRow, emptyRow, emptyRow ]

/-- Test fixture: a white pawn on (4,4) attacked by black knights on (2,3)
and (2,5). -/
def doubleAttackBoard : Board :=
  [ emptyRow, emptyRow
  , [none, none, none, some ⟨.knight, .black, true⟩, none,
     some ⟨.knight, .black, true⟩, none, none]
  , emptyRow
  , [none, none, none, none, some ⟨.pawn, .white, true⟩, none, none, none]
  , emptyRow, emptyRow, emptyRow ]


/-- Test fixture: the board after white plays the pawn (6,4) → (4,4) from
the initial position. -/
def boardAfterE4 : Board :=
  let back : List PieceType :=
    [.rook, .knight, .bishop, .queen, .king, .bishop, .knight, .rook]
  [ back.map (fun t => some ⟨t, .black, false⟩)
  , (List.replicate 8 PieceType.pawn).map (fun t => some ⟨t, .black, false⟩)
  , List.replicate 8 none
  , List.replicate 8 none
  , [none, none, none, none, some ⟨.pawn, .white, true⟩, none, none, none]
  , List.replicate 8 none
  , [some ⟨.pawn, .white, false⟩, some ⟨.pawn, .white, false⟩,
     some ⟨.pawn, .white, false⟩, some ⟨.pawn, .white, false⟩, none,
     some ⟨.pawn, .white, false⟩, some ⟨.pawn, .white, false⟩,
     some ⟨.pawn, .white, false⟩]
  , back.map (fun t => some ⟨t, .white, false⟩) ]

/-- The count the claim C8 describes, written from the spec's words: the
number of squares holding a piece of the mover's color such that at least
one opposing piece has a legal move onto that square — each threatened
piece counted once, however many attackers it has. -/
def threatenedPieceCount (stateBoard : Board) (b : Board) (color : Color) : ℕ :=
  ((List.range 8).flatMap fun (r : ℕ) =>
    (List.range 8).filter fun (c : ℕ) =>
      (match getSqN b r c with
       | some piece => piece.color = color
       | none => false : Bool) &&
      ((List.range 8).any fun (ar : ℕ) =>
        (List.range 8).any fun (ac : ℕ) =>
          match getSqN b ar ac with
          | some attacker =>
            attacker.color ≠ color ∧
              isValidMove stateBoard ar ac r c attacker
          | none => false)).length

/-- `countUndevelopedPieces` inspects four squares, so counts at most 4. -/
theorem countUndevelopedPieces_le_four (b : Board) (color : Color) :
    countUndevelopedPieces b color ≤ 4 := by
  unfold countUndevelopedPieces
  exact List.length_filter_le _ _

/-- C1: the claim says `classify(prevEval = 0, newEval = -2.5, mover =
white)` yields tier blunder with symbol "???"; in the code the diff 2.5
falls in the `diff > 1.5 && diff < 3` bucket, so the classification is
mistake "??", not blunder "???". -/
theorem classify_example_cex :
    (classifyMove .white none 0 0 0 (-(5 / 2))).type = "mistake" ∧
    (classifyMove .white none 0 0 0 (-(5 / 2))).type ≠ "blunder" ∧
    (classifyMove .white none 0 0 0 (-(5 / 2))).symbol ≠ "???" :=
  of_decide_eq_true (by with_unfolding_all rfl)

/-- C1 (amended): for mover white, prevEval 0 and newEval -2.5 the
computed diff is 2.5 and the returned classification has tier mistake
with symbol "??". -/
theorem classify_example_amended :
    classifyDiff .white 0 (-(5 / 2)) = 5 / 2 ∧
    (classifyMove .white none 0 0 0 (-(5 / 2))).type = "mistake" ∧
    (classifyMove .white none 0 0 0 (-(5 / 2))).symbol = "??" :=
  of_decide_eq_true (by with_unfolding_all rfl)

/-- C2: the claim says every diff ≥ 3 classifies as blunder "???", in
particular diff = 3 exactly; in the code the blunder branch requires
`diff > 3` strictly, so at diff = 3 (prevEval 3, newEval 0, mover white)
no branch matches and the move classifies as good with empty symbol. -/
theorem classify_diff_three_cex :
    classifyDiff .white 3 0 = 3 ∧
    (classifyMove .white none 0 0 3 0).type = "good" ∧
    (classifyMove .white none 0 0 3 0).type ≠ "blunder" ∧
    (classifyMove .white none 0 0 3 0).symbol ≠ "???" :=
  of_decide_eq_true (by with_unfolding_all rfl)

/-- C2 (amended): for every prevEval, newEval and mover with diff ≥ 3
(diff = prevEval − newEval for white, newEval − prevEval for black), the
classification is blunder "???" when diff > 3 strictly, and good with
empty symbol when diff = 3 exactly. -/
theorem classify_blunder_threshold (mover : Color) (bm : Option MoveRec)
    (tk bk : ℕ) (previousEval newEval : ℚ)
    (h : 3 ≤ classifyDiff mover previousEval newEval) :
    (classifyMove mover bm tk bk previousEval newEval).type =
      (if classifyDiff mover previousEval newEval = 3 then "good"
       else "blunder") ∧
    (classifyMove mover bm tk bk previousEval newEval).symbol =
      (if classifyDiff mover previousEval newEval = 3 then "" else "???") := by
  rcases eq_or_lt_of_le h with h3 | h3
  · have h3 : classifyDiff mover previousEval newEval = 3 := h3.symm
    rw [classifyMove.eq_def, h3]
    norm_num
  · have h3ne : classifyDiff mover previousEval newEval ≠ 3 := by linarith
    rw [classifyMove.eq_def]
    rw [if_neg (by push_neg; linarith), if_neg (by push_neg; linarith),
        if_neg (by push_neg; intro _; linarith),
        if_neg (by push_neg; intro _; linarith), if_pos h3,
        if_neg h3ne, if_neg h3ne]
    exact ⟨rfl, rfl⟩

/-- Witness for `classify_blunder_threshold` at prevEval 4, newEval 0,
mover white (diff = 4). -/
theorem classify_blunder_threshold_witness :
    3 ≤ classifyDiff .white 4 0 ∧
    ((classifyMove .white none 0 0 4 0).type =
        (if classifyDiff .white 4 0 = 3 then "good" else "blunder") ∧
      (classifyMove .white none 0 0 4 0).symbol =
        (if classifyDiff .white 4 0 = 3 then "" else "???")) :=
  ⟨of_decide_eq_true (by with_unfolding_all rfl),
   classify_blunder_threshold .white none 0 0 4 0
     (of_decide_eq_true (by with_unfolding_all rfl))⟩

/-- C3: with an empty move history (`totalMoves = 0`) the accuracy
expression of `generatePostGameAnalysis` divides zero by zero (NaN in JS,
`none` in the embedding): the computation is not guarded and yields no
defined value. -/
theorem accuracy_zero_moves_undefined : accuracyOf [] = none := rfl

/-- C4: the claim says timeManagement equals remaining time over the
configured initial allotment × 100 and lies in [0,100]; the code divides
by the constant 600, so with allotment 1800 s and the full 1800 s
remaining it yields 300, outside [0,100] and different from the claimed
(1800/1800) × 100 = 100. -/
theorem timeManagement_cex :
    (performanceStatsOf [] initializeBoard 1800 0 0).timeManagement = 300 ∧
    ¬ (performanceStatsOf [] initializeBoard 1800 0 0).timeManagement ≤ 100 ∧
    (performanceStatsOf [] initializeBoard 1800 0 0).timeManagement ≠
      1800 / 1800 * 100 :=
  of_decide_eq_true (by with_unfolding_all rfl)

/-- C4 (amended): for every session end state, tacticalAccuracy,
positionalAwareness, endgameSkill and openingKnowledge lie in [0,100]
(with the two random draws in [0,1)); timeManagement equals the white
remaining time divided by the constant 600 × 100 — the configured initial
allotment is not consulted — and lies in [0,100] only when the remaining
time is at most 600 s. -/
theorem performanceStats_bounds (moves : List MoveHist) (b : Board)
    (wt r1 r2 : ℚ) (hw0 : 0 ≤ wt) (hw1 : wt ≤ 600)
    (hr10 : 0 ≤ r1) (hr11 : r1 < 1) (hr20 : 0 ≤ r2) (hr21 : r2 < 1) :
    (0 ≤ (performanceStatsOf moves b wt r1 r2).tacticalAccuracy ∧
      (performanceStatsOf moves b wt r1 r2).tacticalAccuracy ≤ 100) ∧
    (0 ≤ (performanceStatsOf moves b wt r1 r2).positionalAwareness ∧
      (performanceStatsOf moves b wt r1 r2).positionalAwareness ≤ 100) ∧
    (0 ≤ (performanceStatsOf moves b wt r1 r2).endgameSkill ∧
      (performanceStatsOf moves b wt r1 r2).endgameSkill ≤ 100) ∧
    (0 ≤ (performanceStatsOf moves b wt r1 r2).openingKnowledge ∧
      (performanceStatsOf moves b wt r1 r2).openingKnowledge ≤ 100) ∧
    ((performanceStatsOf moves b wt r1 r2).timeManagement = wt / 600 * 100 ∧
      0 ≤ (performanceStatsOf moves b wt r1 r2).timeManagement ∧
      (performanceStatsOf moves b wt r1 r2).timeManagement ≤ 100) := by
  have hu : (countUndevelopedPieces b .white : ℚ) ≤ 4 := by
    exact_mod_cast countUndevelopedPieces_le_four b .white
  have hu0 : (0 : ℚ) ≤ countUndevelopedPieces b .white := by positivity
  have hb0 : (0 : ℚ) ≤ classifiedCount moves "blunder" := by positivity
  have htm : wt / 600 * 100 = wt * (1 / 6) := by ring
  unfold performanceStatsOf
  refine ⟨⟨le_max_left _ _, max_le (by norm_num) ?_⟩, ⟨by linarith, by linarith⟩,
    ?_, ⟨by linarith, by linarith⟩, rfl, ?_, ?_⟩
  · linarith
  · split_ifs
    · constructor <;> linarith
    · constructor <;> norm_num
  · rw [htm]; linarith
  · rw [htm]; linarith

/-- Witness for `performanceStats_bounds`: no moves, the initial board,
600 s remaining, both random draws 0. -/
theorem performanceStats_bounds_witness :
    ((0:ℚ) ≤ 600 ∧ (0:ℚ) ≤ 1 ∧
      (performanceStatsOf [] initializeBoard 600 0 0).timeManagement =
        600 / 600 * 100) ∧
    (0 ≤ (performanceStatsOf [] initializeBoard 600 0 0).tacticalAccuracy ∧
      (performanceStatsOf [] initializeBoard 600 0 0).tacticalAccuracy ≤ 100) :=
  ⟨⟨of_decide_eq_true (by with_unfolding_all rfl),
    of_decide_eq_true (by with_unfolding_all rfl),
    ((performanceStats_bounds [] initializeBoard 600 0 0
      (of_decide_eq_true (by with_unfolding_all rfl))
      (of_decide_eq_true (by with_unfolding_all rfl))
      (of_decide_eq_true (by with_unfolding_all rfl))
      (of_decide_eq_true (by with_unfolding_all rfl))
      (of_decide_eq_true (by with_unfolding_all rfl))
      (of_decide_eq_true (by with_unfolding_all rfl))).2.2.2.2).1⟩,
   (performanceStats_bounds [] initializeBoard 600 0 0
      (of_decide_eq_true (by with_unfolding_all rfl))
      (of_decide_eq_true (by with_unfolding_all rfl))
      (of_decide_eq_true (by with_unfolding_all rfl))
      (of_decide_eq_true (by with_unfolding_all rfl))
      (of_decide_eq_true (by with_unfolding_all rfl))
      (of_decide_eq_true (by with_unfolding_all rfl))).1⟩

set_option maxRecDepth 100000 in
/-- C5: on the initial board the white pawn move (6,4) → (4,4) passes the
legality checker, and the resulting board evaluates (material plus
positional, divided by 10) to exactly 0.03. -/
theorem e2e4_legal_and_eval :
    isValidMove initializeBoard 6 4 4 4 ⟨.pawn, .white, false⟩ = true ∧
    makeMoveBoard initializeBoard 6 4 4 4 = some boardAfterE4 ∧
    simulateEval boardAfterE4 = 3 / 100 :=
  ⟨by decide, by decide, of_decide_eq_true (by with_unfolding_all rfl)⟩

/-- C6: the legality checker is a pure function of the board and its four
arguments: any two session states with the same board give the same
verdict for the same squares and piece, whatever their current player,
move count, engine evaluation, best move or clocks. -/
theorem isValidMove_pure (s₁ s₂ : SessionState)
    (fromRow fromCol toRow toCol : ℤ) (piece : Piece)
    (hb : s₁.board = s₂.board) :
    isValidMoveSt s₁ fromRow fromCol toRow toCol piece =
      isValidMoveSt s₂ fromRow fromCol toRow toCol piece := by
  unfold isValidMoveSt
  rw [hb]

/-- Witness for `isValidMove_pure`: two states sharing the initial board
but differing in every other field. -/
theorem isValidMove_pure_witness :
    (SessionState.mk initializeBoard .white 0 0 none 600 600).board =
      (SessionState.mk initializeBoard .black 7 (1 / 2)
        (some ⟨6, 4, 4, 4, "e2-e4"⟩) 0 300).board ∧
    isValidMoveSt (SessionState.mk initializeBoard .white 0 0 none 600 600)
        6 4 4 4 ⟨.pawn, .white, false⟩ =
      isValidMoveSt (SessionState.mk initializeBoard .black 7 (1 / 2)
        (some ⟨6, 4, 4, 4, "e2-e4"⟩) 0 300) 6 4 4 4 ⟨.pawn, .white, false⟩ :=
  ⟨rfl,
   isValidMove_pure (SessionState.mk initializeBoard .white 0 0 none 600 600)
     (SessionState.mk initializeBoard .black 7 (1 / 2)
       (some ⟨6, 4, 4, 4, "e2-e4"⟩) 0 300) 6 4 4 4 ⟨.pawn, .white, false⟩ rfl⟩

/-- C7: `generateAllPossibleMoves` validates destinations against the
session's `board` state, not against its own `board` parameter.  With the
session state still holding the initial position (both (4,4) and (4,5)
empty there), generating moves for a board that has a white rook on (4,4)
and a white pawn on (4,5) emits the rook move (4,4) → (4,5), whose
destination is occupied by a same-color piece on the very board the
generator was asked about. -/
theorem generateMoves_stale_board_cex :
    (generateAllPossibleMoves initializeBoard rookPawnBoard .white).any
        (fun m => m.fromR = 4 && m.fromC = 4 && m.toR = 4 && m.toC = 5) =
      true ∧
    getSqN rookPawnBoard 4 5 = some ⟨.pawn, .white, true⟩ ∧
    getSqN rookPawnBoard 4 4 = some ⟨.rook, .white, true⟩ := by
  refine ⟨by decide, by decide, by decide⟩

/-- C8: `detectThreats` pushes one entry per (own piece, attacker) pair,
and the tactical hint announces that pair count as a number of pieces.
With a single white pawn on (4,4) attacked by two black knights the hint
says "2 pieces under attack" although exactly one piece is threatened. -/
theorem detectThreats_pair_count :
    (detectThreats doubleAttackBoard doubleAttackBoard .white).length = 2 ∧
    threatenedPieceCount doubleAttackBoard doubleAttackBoard .white = 1 ∧
    updateLiveHints doubleAttackBoard 0 .white doubleAttackBoard =
      [⟨"tactical", "Alert: 2 pieces under attack! Defend or counter-attack."⟩] := by
  refine ⟨by decide, by decide, by decide⟩

theorem length_getD_setSq (b : Board) (r c r' : ℕ) (v : Option Piece) :
    ((setSq b r c v).getD r' []).length = (b.getD r' []).length := by
  unfold setSq
  rcases eq_or_ne r' r with hr | hr
  · subst hr
    rcases Nat.lt_or_ge r' b.length with hlen | hlen
    · rw [List.getD_eq_getElem?_getD, List.getElem?_set_self hlen,
        List.getD_eq_getElem?_getD, List.getElem?_eq_getElem hlen]
      simp [List.getD_eq_getElem?_getD, List.getElem?_eq_getElem hlen]
    · rw [List.set_eq_of_length_le hlen]
  · rw [List.getD_eq_getElem?_getD, List.getElem?_set_ne (Ne.symm hr),
      List.getD_eq_getElem?_getD]

theorem getSqN_setSq_ne (b : Board) (r c r' c' : ℕ) (v : Option Piece)
    (h : (r', c') ≠ (r, c)) :
    getSqN (setSq b r c v) r' c' = getSqN b r' c' := by
  unfold getSqN setSq
  simp only [List.getD_eq_getElem?_getD]
  rcases eq_or_ne r' r with hr | hr
  · subst hr
    have hc : c' ≠ c := fun hcc => h (by rw [hcc])
    rcases Nat.lt_or_ge r' b.length with hlen | hlen
    · rw [List.getElem?_set_self hlen]
      simp only [Option.getD_some]
      rw [List.getElem?_set_ne (Ne.symm hc)]
    · rw [List.set_eq_of_length_le hlen]
  · rw [List.getElem?_set_ne (Ne.symm hr)]

theorem getSqN_setSq_self (b : Board) (r c : ℕ) (v : Option Piece)
    (hr : r < b.length) (hc : c < (b.getD r []).length) :
    getSqN (setSq b r c v) r c = v := by
  unfold getSqN setSq
  simp only [List.getD_eq_getElem?_getD] at hc ⊢
  rw [List.getElem?_set_self hr]
  simp only [Option.getD_some]
  rw [List.getElem?_set_self hc]
  simp

/-- Rows of a well-formed board have length 8. -/
theorem Board.WF.rowLen {b : Board} (hwf : b.WF) {r : ℕ} (hr : r < 8) :
    (b.getD r []).length = 8 := by
  obtain ⟨hlen, hrows⟩ := hwf
  refine hrows _ ?_
  rw [List.getD_eq_getElem?_getD, List.getElem?_eq_getElem (by omega)]
  exact List.getElem_mem _

/-- C9: applying a move changes only the source and destination squares:
every other square is unchanged, the source becomes empty, and the
destination holds the moved piece with its `moved` flag set. -/
theorem makeMove_frame (b : Board) (fromRow fromCol toRow toCol : ℕ) (p : Piece)
    (hwf : b.WF) (hfr : fromRow < 8) (hfc : fromCol < 8)
    (htr : toRow < 8) (htc : toCol < 8)
    (hp : getSqN b fromRow fromCol = some p)
    (hne : (fromRow, fromCol) ≠ (toRow, toCol)) :
    ∃ b', makeMoveBoard b fromRow fromCol toRow toCol = some b' ∧
      (∀ r c : ℕ, (r, c) ≠ (fromRow, fromCol) → (r, c) ≠ (toRow, toCol) →
        getSqN b' r c = getSqN b r c) ∧
      getSqN b' fromRow fromCol = none ∧
      getSqN b' toRow toCol = some { p with moved := true } := by
  have hblen : b.length = 8 := hwf.1
  set piece : Piece := { p with moved := true } with hpiece
  set b1 := setSq b fromRow fromCol (some piece) with hb1
  set b2 := setSq b1 toRow toCol (some piece) with hb2
  set b3 := setSq b2 fromRow fromCol none with hb3
  have hmk : makeMoveBoard b fromRow fromCol toRow toCol = some b3 := by
    unfold makeMoveBoard
    rw [hp]
  have hb1len : b1.length = 8 := by rw [hb1]; unfold setSq; rw [List.length_set, hblen]
  have hb2len : b2.length = 8 := by rw [hb2]; unfold setSq; rw [List.length_set, hb1len]
  have hb1row : ∀ r : ℕ, (b1.getD r []).length = (b.getD r []).length :=
    fun r => length_getD_setSq b fromRow fromCol r (some piece)
  have hb2row : ∀ r : ℕ, (b2.getD r []).length = (b1.getD r []).length :=
    fun r => length_getD_setSq b1 toRow toCol r (some piece)
  refine ⟨b3, hmk, ?_, ?_, ?_⟩
  · intro r c hns hnd
    rw [hb3, getSqN_setSq_ne _ _ _ _ _ _ hns, hb2,
      getSqN_setSq_ne _ _ _ _ _ _ hnd, hb1, getSqN_setSq_ne _ _ _ _ _ _ hns]
  · rw [hb3]
    refine getSqN_setSq_self _ _ _ _ ?_ ?_
    · omega
    · rw [hb2row, hb1row, hwf.rowLen hfr]; omega
  · rw [hb3, getSqN_setSq_ne _ _ _ _ _ _ (fun hcc => hne hcc.symm), hb2]
    refine getSqN_setSq_self _ _ _ _ ?_ ?_
    · omega
    · rw [hb1row, hwf.rowLen htr]; omega

/-- Witness for `makeMove_frame`: the initial board, pawn (6,4) → (4,4). -/
theorem makeMove_frame_witness :
    getSqN initializeBoard 6 4 = some ⟨.pawn, .white, false⟩ ∧
    ((6, 4) : ℕ × ℕ) ≠ (4, 4) ∧
    (∃ b', makeMoveBoard initializeBoard 6 4 4 4 = some b' ∧
      (∀ r c : ℕ, (r, c) ≠ (6, 4) → (r, c) ≠ (4, 4) →
        getSqN b' r c = getSqN initializeBoard r c) ∧
      getSqN b' 6 4 = none ∧
      getSqN b' 4 4 = some ⟨.pawn, .white, true⟩) :=
  ⟨by decide, by decide,
   makeMove_frame initializeBoard 6 4 4 4 ⟨.pawn, .white, false⟩
     (by decide) (by decide) (by decide) (by decide) (by decide)
     (by decide) (by decide)⟩

/-- Every step target decomposes through `stepOf`: the destination
coordinate is the source plus the step times the absolute distance. -/
theorem stepOf_decomp (a b : ℤ) : b = a + stepOf a b * ((b - a).natAbs : ℤ) := by
  unfold stepOf
  split_ifs <;> omega

theorem stepOf_self (a : ℤ) : stepOf a a = 0 := by
  unfold stepOf
  omega

/-- The loop of `isPathClear` answers within its fuel whenever the
destination lies `n` steps ahead of the scanned square, for any `n` at
most the fuel: each iteration advances exactly one step. -/
theorem pathClearAux_reaches (b : Board) (toRow toCol rowStep colStep : ℤ) :
    ∀ (n fuel : ℕ) (r c : ℤ), n ≤ fuel → toRow = r + rowStep * n →
      toCol = c + colStep * n →
      (pathClearAux b toRow toCol rowStep colStep fuel r c).isSome = true := by
  intro n
  induction n with
  | zero =>
    intro fuel r c _ hr hc
    simp only [Nat.cast_zero, mul_zero, add_zero] at hr hc
    cases fuel with
    | zero => rw [pathClearAux, if_pos ⟨hr.symm, hc.symm⟩]; rfl
    | succ m => rw [pathClearAux, if_pos ⟨hr.symm, hc.symm⟩]; rfl
  | succ n ih =>
    intro fuel r c hle hr hc
    obtain ⟨m, rfl⟩ : ∃ m, fuel = m + 1 := ⟨fuel - 1, by omega⟩
    rw [pathClearAux]
    by_cases h1 : r = toRow ∧ c = toCol
    · rw [if_pos h1]; rfl
    · rw [if_neg h1]
      by_cases h2 : (getSq b r c).isSome
      · rw [if_pos h2]; rfl
      · rw [if_neg h2]
        refine ih m (r + rowStep) (c + colStep) (by omega) ?_ ?_
        · rw [hr]; push_cast; ring
        · rw [hc]; push_cast; ring

/-- C10: for every pair of distinct in-range squares sharing a row, a
column or a diagonal (the precondition the bishop/rook/queen geometry
checks establish), the `isPathClear` scan reaches the destination in some
`d ≤ 7` one-square steps, and its loop (fuel 8 in the embedding) answers
without exhausting the fuel. -/
theorem isPathClear_terminates (b : Board) (fromRow fromCol toRow toCol : ℤ)
    (hfr : 0 ≤ fromRow ∧ fromRow < 8) (hfc : 0 ≤ fromCol ∧ fromCol < 8)
    (htr : 0 ≤ toRow ∧ toRow < 8) (htc : 0 ≤ toCol ∧ toCol < 8)
    (hne : ¬(fromRow = toRow ∧ fromCol = toCol))
    (halign : fromRow = toRow ∨ fromCol = toCol ∨
      (toRow - fromRow).natAbs = (toCol - fromCol).natAbs) :
    ∃ d : ℕ, 1 ≤ d ∧ d ≤ 7 ∧
      toRow = fromRow + stepOf fromRow toRow * d ∧
      toCol = fromCol + stepOf fromCol toCol * d ∧
      (pathClearAux b toRow toCol (stepOf fromRow toRow)
          (stepOf fromCol toCol) 8 (fromRow + stepOf fromRow toRow)
          (fromCol + stepOf fromCol toCol)).isSome = true := by
  set rs := stepOf fromRow toRow with hrs
  set cs := stepOf fromCol toCol with hcs
  set n₁ := (toRow - fromRow).natAbs with hn₁
  set n₂ := (toCol - fromCol).natAbs with hn₂
  have hrow : toRow = fromRow + rs * ((max n₁ n₂ : ℕ) : ℤ) := by
    rcases halign with h | h | h
    · have h0 : rs = 0 := by rw [hrs, h, stepOf_self]
      rw [h0, h]; ring
    · have hm : max n₁ n₂ = n₁ := by omega
      rw [hm]; exact stepOf_decomp fromRow toRow
    · have hm : max n₁ n₂ = n₁ := by omega
      rw [hm]; exact stepOf_decomp fromRow toRow
  have hcol : toCol = fromCol + cs * ((max n₁ n₂ : ℕ) : ℤ) := by
    rcases halign with h | h | h
    · have hm : max n₁ n₂ = n₂ := by omega
      rw [hm]; exact stepOf_decomp fromCol toCol
    · have h0 : cs = 0 := by rw [hcs, h, stepOf_self]
      rw [h0, h]; ring
    · have hm : max n₁ n₂ = n₂ := by omega
      rw [hm]; exact stepOf_decomp fromCol toCol
  have hm1 : ((max n₁ n₂ - 1 : ℕ) : ℤ) = ((max n₁ n₂ : ℕ) : ℤ) - 1 := by omega
  refine ⟨max n₁ n₂, by omega, by omega, hrow, hcol, ?_⟩
  refine pathClearAux_reaches b toRow toCol _ _ (max n₁ n₂ - 1) 8
    (fromRow + rs) (fromCol + cs) (by omega) ?_ ?_
  · rw [hm1, hrow]; ring
  · rw [hm1, hcol]; ring

/-- Witness for `isPathClear_terminates`: the main diagonal (0,0) → (7,7)
of an empty board. -/
theorem isPathClear_terminates_witness :
    (¬((0 : ℤ) = 7 ∧ (0 : ℤ) = 7)) ∧
    (∃ d : ℕ, 1 ≤ d ∧ d ≤ 7 ∧
      (7 : ℤ) = 0 + stepOf 0 7 * d ∧
      (7 : ℤ) = 0 + stepOf 0 7 * d ∧
      (pathClearAux ([] : Board) 7 7 (stepOf 0 7) (stepOf 0 7) 8
          (0 + stepOf 0 7) (0 + stepOf 0 7)).isSome = true) :=
  ⟨by decide,
   isPathClear_terminates [] 0 0 7 7 (by decide) (by decide) (by decide)
     (by decide) (by decide) (by decide)⟩
